import Mathlib

/-!
Verification of the Harmony backend's activity-configuration and
progress-tracking engine, shallowly embedded from the Python source
(`app/services/user_daily_log.py`, `app/crud/user_daily_log.py`,
`app/crud/user_priorities.py`).  Activity dictionaries are modelled by a
record carrying the fields the tracked behaviour depends on: the
activity `name`, the current progress `configuration.complete`, and the
target `configuration.quota.value`.  Python numbers are modelled by `ℚ`;
the remaining dictionary entries (description, pillar, dimension, unit,
reset frequency) are never read or written by the operations under
verification and are omitted.
-/
namespace Harmony

/-- One activity dictionary, as stored in the JSON-array columns.
`complete` models `configuration.complete` and `quotaValue` models
`configuration.quota.value`; reads in the source default both to 0 when
the keys are absent, so the totalised record is observationally the
same. -/
structure Activity where
  name : String
  complete : ℚ
  quotaValue : ℚ
  deriving DecidableEq

/-- The `UserActivityTracker` row: eight JSON-array columns, four pillar
activity lists and four coping lists
(`app/models/user_activity_tracker.py`). -/
structure ActivityTracker where
  health_activity : List Activity
  work_activity : List Activity
  growth_activity : List Activity
  relationship_activity : List Activity
  health_coping : List Activity
  productivity_coping : List Activity
  mindfulness_coping : List Activity
  relationship_coping : List Activity
  deriving DecidableEq

/-- Names of the eight tracker columns. -/
inductive TrackerField
  | healthActivity
  | workActivity
  | growthActivity
  | relationshipActivity
  | healthCoping
  | productivityCoping
  | mindfulnessCoping
  | relationshipCoping
  deriving DecidableEq

open TrackerField

/-- `getattr(tracker, field_name)`. -/
def getField (t : ActivityTracker) : TrackerField → List Activity
  | healthActivity => t.health_activity
  | workActivity => t.work_activity
  | growthActivity => t.growth_activity
  | relationshipActivity => t.relationship_activity
  | healthCoping => t.health_coping
  | productivityCoping => t.productivity_coping
  | mindfulnessCoping => t.mindfulness_coping
  | relationshipCoping => t.relationship_coping

/-- `setattr(tracker, field_name, l)`. -/
def setField (t : ActivityTracker) : TrackerField → List Activity → ActivityTracker
  | healthActivity, l => { t with health_activity := l }
  | workActivity, l => { t with work_activity := l }
  | growthActivity, l => { t with growth_activity := l }
  | relationshipActivity, l => { t with relationship_activity := l }
  | healthCoping, l => { t with health_coping := l }
  | productivityCoping, l => { t with productivity_coping := l }
  | mindfulnessCoping, l => { t with mindfulness_coping := l }
  | relationshipCoping, l => { t with relationship_coping := l }

/-- The error taxonomy of the backend (`ValidationError` /
`NotFoundError` / `ConflictError`); the service raises these conditions
as exceptions before any commit of the failing operation. -/
inductive AppError
  | validation (msg : String)
  | notFound (name : String)
  | conflict (name : String)
  deriving DecidableEq

/-! ## Rounding

Python's `round(x, 2)` rounds half to even (banker's rounding); on our
exact `ℚ` model of Python numbers this is the function below. -/
/-- Round a rational to the nearest integer, ties to even. -/
def pyRoundInt (x : ℚ) : ℤ :=
  let f : ℤ := ⌊x⌋
  if x - f < 1 / 2 then f
  else if 1 / 2 < x - f then f + 1
  else if f % 2 = 0 then f else f + 1

/-- Python `round(x, 2)`. -/
def round2 (x : ℚ) : ℚ := (pyRoundInt (x * 100) : ℚ) / 100

/-! ## Finding an activity in the tracker

`UserDailyLogService._find_activity_in_tracker`
(`app/services/user_daily_log.py`): scans the relevant columns in a
fixed order and returns the first dictionary whose `name` matches,
together with the column it was found in. -/
/-- The fixed search order used when no category filter is given:
activity lists before coping lists, health→work→growth→relationship. -/
def allTrackerFields : List TrackerField :=
  [healthActivity, workActivity, growthActivity, relationshipActivity,
   healthCoping, productivityCoping, mindfulnessCoping, relationshipCoping]

/-- The `category_map` of the service: a category narrows the search to
that category's activity and coping columns; an unknown category maps to
no columns. -/
def categoryFields (category : String) : List TrackerField :=
  if category = "health" then [healthActivity, healthCoping]
  else if category = "work" then [workActivity, productivityCoping]
  else if category = "growth" then [growthActivity, mindfulnessCoping]
  else if category = "relationships" then [relationshipActivity, relationshipCoping]
  else if category = "relationship" then [relationshipActivity, relationshipCoping]
  else []

/-- Columns searched for a given optional category filter. -/
def fieldsToSearch : Option String → List TrackerField
  | some c => categoryFields c
  | none => allTrackerFields

/-- Scan a list of columns in order; in each column return the first
activity whose name matches (the source's nested `for` loops; an empty
column is skipped by `continue`, which `List.find? = none` models). -/
def findInFields (t : ActivityTracker) (activity_name : String) :
    List TrackerField → Option (Activity × TrackerField)
  | [] => none
  | f :: fs =>
    match (getField t f).find? (fun a => a.name == activity_name) with
    | some a => some (a, f)
    | none => findInFields t activity_name fs

/-- `_find_activity_in_tracker(tracker, activity_name, category)`. -/
def find_activity_in_tracker (t : ActivityTracker) (activity_name : String)
    (category : Option String) : Option (Activity × TrackerField) :=
  findInFields t activity_name (fieldsToSearch category)

/-! ## Mutating the found activity

The service mutates the returned dictionary in place
(`activity["configuration"]["complete"] = ...`), which rewrites the
first name-match of the column it sits in. -/
/-- Rewrite the `complete` of the first activity named `activity_name`
in a column, applying `f` to its current value; no-op when absent. -/
def updateComplete (activity_name : String) (f : ℚ → ℚ) :
    List Activity → List Activity
  | [] => []
  | a :: rest =>
    if a.name == activity_name then { a with complete := f a.complete } :: rest
    else a :: updateComplete activity_name f rest

/-- Core of the tracker mutation operations: find the activity in the
searched scope; on a miss raise the not-found error, otherwise rewrite
its `complete` with `f` and return the updated tracker. -/
def applyToActivity (t : ActivityTracker) (activity_name : String)
    (category : Option String) (f : ℚ → ℚ) : Except AppError ActivityTracker :=
  match find_activity_in_tracker t activity_name category with
  | none => .error (.notFound activity_name)
  | some (_, fld) =>
    .ok (setField t fld (updateComplete activity_name f (getField t fld)))

/-- `increment_activity_complete` (service layer), tracker part: the new
value is `max(0, current + increment)` — clamped at a floor of 0. -/
def increment_activity_complete (t : ActivityTracker) (activity_name : String)
    (increment : ℚ) (category : Option String) : Except AppError ActivityTracker :=
  applyToActivity t activity_name category (fun current => max 0 (current + increment))

/-- `update_activity_complete` (service layer), tracker part: rejects a
negative value, otherwise overwrites `complete`. -/
def update_activity_complete_tracker (t : ActivityTracker) (activity_name : String)
    (complete_value : ℚ) (category : Option String) : Except AppError ActivityTracker :=
  if complete_value < 0 then .error (.validation "Complete value must be non-negative")
  else applyToActivity t activity_name category (fun _ => complete_value)

/-- `reset_activity` (service layer), tracker part: delegates to the
update operation with value 0. -/
def reset_activity_tracker (t : ActivityTracker) (activity_name : String)
    (category : Option String) : Except AppError ActivityTracker :=
  update_activity_complete_tracker t activity_name 0 category

/-- `UserDailyLogService._has_activities`: Python truthiness of
`any([...])` over the four pillar activity lists (coping lists are not
consulted). -/
def hasActivities (t : ActivityTracker) : Bool :=
  !t.health_activity.isEmpty || !t.work_activity.isEmpty ||
  !t.growth_activity.isEmpty || !t.relationship_activity.isEmpty

/-! ## Completion percentage

`get_completion_percentage` (`app/services/user_daily_log.py`). -/
/-- The percentage computation applied to the found activity:
`0.0` when the quota value is `0`, else
`min(round(complete / quota * 100, 2), 100.0)`. -/
def get_completion_percentage (a : Activity) : ℚ :=
  if a.quotaValue = 0 then 0
  else min (round2 (a.complete / a.quotaValue * 100)) 100

/-- Restatement of the specification sentence for comparison: 0 if the
quota value is 0, else `min(100, round(complete/quota*100, 2))`. -/
def completion_percentage_spec (a : Activity) : ℚ :=
  if a.quotaValue = 0 then 0
  else min 100 (round2 (a.complete / a.quotaValue * 100))

/-! ## Chatbot conversation

`CRUDUserDailyLog.delete_chatbot_message` (`app/crud/user_daily_log.py`):
deletes one message of the conversation list by position. -/
/-- One `{role, content, timestamp}` message of a chatbot conversation. -/
structure ChatMessage where
  role : String
  content : String
  timestamp : String
  deriving DecidableEq

/-- `delete_chatbot_message`: returns `False` leaving the conversation
as it is when the conversation is empty (falsy) or the index is out of
range; otherwise `pop(message_index)` and return `True`.  The Python
`int` index is modelled by `ℤ`. -/
def delete_chatbot_message (conversation : List ChatMessage) (message_index : ℤ) :
    Bool × List ChatMessage :=
  if conversation.isEmpty then (false, conversation)
  else if message_index < 0 ∨ (conversation.length : ℤ) ≤ message_index then
    (false, conversation)
  else (true, conversation.eraseIdx message_index.toNat)

/-! ## Priorities catalog

`app/crud/user_priorities.py`: the durable per-user, per-pillar activity
catalog, four JSON-array columns. -/
/-- The `UserPriorities` row: one activity list per pillar. -/
structure Priorities where
  health_activities : List Activity
  work_activities : List Activity
  growth_activities : List Activity
  relationships_activities : List Activity
  deriving DecidableEq

/-- The four life pillars. -/
inductive Pillar
  | health
  | work
  | growth
  | relationships
  deriving DecidableEq

/-- `getattr(db_obj, f"{pillar.value}_activities") or []`. -/
def getPillarActivities (p : Priorities) : Pillar → List Activity
  | .health => p.health_activities
  | .work => p.work_activities
  | .growth => p.growth_activities
  | .relationships => p.relationships_activities

/-- `setattr(db_obj, f"{pillar.value}_activities", l)`. -/
def setPillarActivities (p : Priorities) : Pillar → List Activity → Priorities
  | .health, l => { p with health_activities := l }
  | .work, l => { p with work_activities := l }
  | .growth, l => { p with growth_activities := l }
  | .relationships, l => { p with relationships_activities := l }

/-- `add_activity_to_pillar`: raises the conflict error — before any
write commits, so the record is returned unchanged — when an activity of
the exact same name is already in that pillar's list; otherwise appends
the activity. -/
def add_activity_to_pillar (p : Priorities) (pillar : Pillar) (activity : Activity) :
    Priorities × Option AppError :=
  let existing := getPillarActivities p pillar
  if existing.any (fun act => act.name == activity.name) then
    (p, some (.conflict activity.name))
  else
    (setPillarActivities p pillar (existing ++ [activity]), none)

/-! ## Activity streak

`UserDailyLogService.get_activity_streak`: walks backward day-by-day
from today for `days_to_check` days, fetching the activity for each day
with `get_activity_by_name` (which returns nothing when the day has no
tracker or the tracker does not hold the name).  Day `i` below means `i`
days before today; the database is abstracted by the oracle
`days : Nat → Option Activity` giving what that fetch returns. -/
/-- `met_goal`: `(quota > 0 and complete >= quota) or (quota == 0 and
complete > 0)`. -/
def met_goal (a : Activity) : Bool :=
  (decide (0 < a.quotaValue) && decide (a.quotaValue ≤ a.complete)) ||
  (decide (a.quotaValue = 0) && decide (0 < a.complete))

/-- The three loop variables of the streak walk. -/
structure StreakState where
  current : Nat
  longest : Nat
  temp : Nat
  deriving DecidableEq

/-- One iteration of the day loop at day `i`: on a goal-met day the run
counter grows, the longest streak is refreshed, and the current streak
grows exactly when the walk is still consecutive from today
(`i == current_streak`); otherwise — not found or goal missed — the run
counter resets. -/
def streakStep (a? : Option Activity) (i : Nat) (s : StreakState) : StreakState :=
  match a? with
  | some a =>
    if met_goal a then
      { current := if i = s.current then s.current + 1 else s.current,
        longest := max s.longest (s.temp + 1),
        temp := s.temp + 1 }
    else { s with temp := 0 }
  | none => { s with temp := 0 }

/-- The loop `for i in range(days_to_check)` of `get_activity_streak`,
run for the first `n` days. -/
def streakRun (days : Nat → Option Activity) : Nat → StreakState
  | 0 => ⟨0, 0, 0⟩
  | n + 1 => streakStep (days n) n (streakRun days n)

/-- `get_activity_streak(user, activity_name, category, days_to_check)`,
returning `(current_streak, longest_streak)`. -/
def get_activity_streak (days : Nat → Option Activity) (days_to_check : Nat) :
    Nat × Nat :=
  let s := streakRun days days_to_check
  (s.current, s.longest)

/-- Spec: a day qualifies iff it has data for the activity and the goal
condition holds; a missing day never qualifies (broken chain, not
skipped). -/
def qualifies (days : Nat → Option Activity) (i : Nat) : Bool :=
  match days i with
  | some a => met_goal a
  | none => false

/-- Spec: the current streak is the number of consecutive qualifying
days ending at today, i.e. the qualifying prefix of the walked window. -/
def currentStreakSpec (q : Nat → Bool) (n : Nat) : Nat :=
  ((List.range n).takeWhile q).length

/-- Spec: length of the consecutive qualifying run ending at day `i`. -/
def runLen (q : Nat → Bool) : Nat → Nat
  | 0 => if q 0 then 1 else 0
  | i + 1 => if q (i + 1) then runLen q i + 1 else 0

/-- Spec: the longest streak is the longest run of consecutive
qualifying days anywhere in the window. -/
def longestStreakSpec (q : Nat → Bool) (n : Nat) : Nat :=
  (List.range n).foldl (fun m i => max m (runLen q i)) 0

/-- The run counter after `n` loop iterations, in spec terms. -/
def tempSpec (q : Nat → Bool) : Nat → Nat
  | 0 => 0
  | n + 1 => runLen q n

/-! ## Progress summary

`UserDailyLogService.get_activity_progress_summary`: scans only the four
pillar activity lists, bucketing every activity into exactly one of
not-started / completed / in-progress. -/
/-- The returned summary dictionary. -/
structure ProgressSummary where
  total : Nat
  completed : Nat
  in_progress : Nat
  not_started : Nat
  completion_rate : ℚ
  deriving DecidableEq

/-- The inner bucketing loop over one activity list, extending the
running `(total, completed, in_progress, not_started)` counters: a
`complete` of 0 is not started; otherwise meeting a positive quota is
completed; everything else is in progress. -/
def bucketLoop : List Activity → Nat × Nat × Nat × Nat → Nat × Nat × Nat × Nat
  | [], acc => acc
  | a :: rest, (tot, comp, prog, ns) =>
    if a.complete = 0 then bucketLoop rest (tot + 1, comp, prog, ns + 1)
    else if 0 < a.quotaValue ∧ a.quotaValue ≤ a.complete then
      bucketLoop rest (tot + 1, comp + 1, prog, ns)
    else bucketLoop rest (tot + 1, comp, prog + 1, ns)

/-- Packaging of the final counters into the returned dictionary, with
`completion_rate = round((completed / total * 100) if total > 0 else
0.0, 2)` as in the source. -/
def mkSummary (acc : Nat × Nat × Nat × Nat) : ProgressSummary :=
  ⟨acc.1, acc.2.1, acc.2.2.1, acc.2.2.2,
    round2 (if 0 < acc.1 then (acc.2.1 : ℚ) / (acc.1 : ℚ) * 100 else 0)⟩

/-- `get_activity_progress_summary`: zeros when no tracker exists for
the date; otherwise buckets the four pillar activity lists in order
(the coping lists are never read). -/
def get_activity_progress_summary : Option ActivityTracker → ProgressSummary
  | none => ⟨0, 0, 0, 0, 0⟩
  | some t =>
    mkSummary (bucketLoop t.relationship_activity
      (bucketLoop t.growth_activity
        (bucketLoop t.work_activity
          (bucketLoop t.health_activity (0, 0, 0, 0)))))

/-- Spec bucket: not started iff `complete == 0`. -/
def notStartedP (a : Activity) : Bool := decide (a.complete = 0)

/-- Spec bucket: completed iff `complete != 0` and the quota is positive
and met. -/
def completedP (a : Activity) : Bool :=
  decide (a.complete ≠ 0) && decide (0 < a.quotaValue) &&
  decide (a.quotaValue ≤ a.complete)

/-- Spec bucket: in progress iff neither of the other two buckets. -/
def inProgressP (a : Activity) : Bool :=
  decide (a.complete ≠ 0) &&
  !(decide (0 < a.quotaValue) && decide (a.quotaValue ≤ a.complete))

/-- The summary the specification describes, over the concatenation of
the four pillar activity lists. -/
def progress_summary_spec (t : ActivityTracker) : ProgressSummary :=
  let l := t.health_activity ++ t.work_activity ++ t.growth_activity ++
    t.relationship_activity
  ⟨l.length, l.countP completedP, l.countP inProgressP, l.countP notStartedP,
    if l.length = 0 then 0
    else round2 ((l.countP completedP : ℚ) / (l.length : ℚ) * 100)⟩

/-! ## Idempotent initialization

`UserDailyLogService.initialize_daily_activities`, with
`get_or_create_daily_log` and
`CRUDUserDailyLog.populate_activities_from_priorities`. -/
/-- `_reset_activity_complete_values`: copy the activities with
`configuration.complete` reset to 0. -/
def resetCompleteValues (l : List Activity) : List Activity :=
  l.map (fun a => { a with complete := 0 })

/-- The tracker `get_or_create_daily_log` creates when no daily log
exists yet: pillar activity lists snapshotted from the priorities with
`complete` reset to 0, coping lists empty. -/
def newTrackerFromPriorities (p : Priorities) : ActivityTracker :=
  ⟨resetCompleteValues p.health_activities,
   resetCompleteValues p.work_activities,
   resetCompleteValues p.growth_activities,
   resetCompleteValues p.relationships_activities,
   [], [], [], []⟩

/-- `populate_activities_from_priorities` fed with the reset activity
lists of the priorities record: overwrites the four pillar activity
columns, leaving the coping columns as they are. -/
def populate_activities_from_priorities (p : Priorities) (t : ActivityTracker) :
    ActivityTracker :=
  { t with health_activity := resetCompleteValues p.health_activities,
           work_activity := resetCompleteValues p.work_activities,
           growth_activity := resetCompleteValues p.growth_activities,
           relationship_activity := resetCompleteValues p.relationships_activities }

/-- `get_or_create_daily_log`, tracker part, for a user whose priorities
record exists: an existing tracker is returned, an absent one is created
populated from the priorities. -/
def get_or_create_tracker (p : Priorities) : Option ActivityTracker → ActivityTracker
  | some t => t
  | none => newTrackerFromPriorities p

/-- `initialize_daily_activities` for a user whose priorities record
exists: get or create the tracker; if its pillar activity lists are
already populated return it unchanged, otherwise populate it from the
priorities. -/
def initialize_daily_activities (p : Priorities) (t? : Option ActivityTracker) :
    ActivityTracker :=
  let t := get_or_create_tracker p t?
  if hasActivities t then t else populate_activities_from_priorities p t

/-! ## State-level operations

The store: one priorities record per user plus one optional tracker per
date (dates are modelled as integers; other daily-log children are
untouched by the activity operations and are omitted).  Every commit of
the service writes one tracker row of one date. -/
/-- The per-user store the activity engine reads and writes.  The
priorities record is present, as claims C5 and C6 assume. -/
structure AppState where
  priorities : Priorities
  trackers : ℤ → Option ActivityTracker

/-- Commit a tracker row for date `d`. -/
def setTracker (s : AppState) (d : ℤ) (t : ActivityTracker) : AppState :=
  { s with trackers := fun d2 => if d2 = d then some t else s.trackers d2 }

/-- `initialize_daily_activities` at the store level: the net write of
`get_or_create_daily_log` plus the populate commit is the initialized
tracker at date `D`. -/
def svcInitialize (s : AppState) (D : ℤ) : ActivityTracker × AppState :=
  let t := initialize_daily_activities s.priorities (s.trackers D)
  (t, setTracker s D t)

/-- The fetch-or-auto-initialize preamble every mutation operation runs:
reuse the tracker when it exists and is populated, otherwise initialize
it (committing the initialization). -/
def fetchOrInit (s : AppState) (D : ℤ) : ActivityTracker × AppState :=
  match s.trackers D with
  | some t => if hasActivities t then (t, s) else svcInitialize s D
  | none => svcInitialize s D

/-- `update_activity_complete` (service layer) on the store: reject a
negative value; fetch or auto-initialize the tracker of date `D`; find
the named activity in the searched scope; on a miss raise not-found
(the auto-initialization, already committed, stands); otherwise set its
`complete` and commit the tracker row of date `D`. -/
def update_activity_complete (s : AppState) (D : ℤ) (activity_name : String)
    (complete_value : ℚ) (category : Option String) : AppState × Option AppError :=
  if complete_value < 0 then
    (s, some (.validation "Complete value must be non-negative"))
  else
    match find_activity_in_tracker (fetchOrInit s D).1 activity_name category with
    | none => ((fetchOrInit s D).2, some (.notFound activity_name))
    | some (_, fld) =>
      (setTracker (fetchOrInit s D).2 D
        (setField (fetchOrInit s D).1 fld
          (updateComplete activity_name (fun _ => complete_value)
            (getField (fetchOrInit s D).1 fld))), none)

/-! ## Bulk updates

`UserDailyLogService.bulk_update_activities`: iterates the update items
in order, counting per-item successes and failures; one item's failure
aborts nothing. -/
/-- One item of a bulk update request (`{name, complete, category}`). -/
structure UpdateItem where
  name : Option String
  complete : Option ℚ
  category : Option String

/-- The per-item outcome counters of a bulk update. -/
structure BulkCounts where
  success_count : Nat
  error_count : Nat
  deriving DecidableEq

/-- One iteration of the bulk loop: an item with a missing or empty name
or a missing complete value is counted as an error without touching the
store; otherwise the single update runs, a raised error caught and
counted while the store keeps whatever the single update committed. -/
def bulkStep (D : ℤ) (acc : BulkCounts × AppState) (u : UpdateItem) :
    BulkCounts × AppState :=
  match u.name, u.complete with
  | some n, some v =>
    if n = "" then ({ acc.1 with error_count := acc.1.error_count + 1 }, acc.2)
    else
      match update_activity_complete acc.2 D n v u.category with
      | (s2, none) => ({ acc.1 with success_count := acc.1.success_count + 1 }, s2)
      | (s2, some _) => ({ acc.1 with error_count := acc.1.error_count + 1 }, s2)
  | _, _ => ({ acc.1 with error_count := acc.1.error_count + 1 }, acc.2)

/-- `bulk_update_activities`: fold the loop over the items in order. -/
def bulk_update_activities (s : AppState) (D : ℤ) (updates : List UpdateItem) :
    BulkCounts × AppState :=
  updates.foldl (bulkStep D) (⟨0, 0⟩, s)

/-- C7: `completion_percentage` returns 0 when the quota value is 0
(regardless of `complete`), and otherwise `min(100,
round(complete/quota*100, 2))`; with `quota.value = 10000` and
`complete = 7500` it returns exactly `75.0`. -/
theorem claim_C7 :
    (∀ a : Activity, get_completion_percentage a = completion_percentage_spec a) ∧
    (∀ a : Activity, a.quotaValue = 0 → get_completion_percentage a = 0) ∧
    (∀ a : Activity, a.quotaValue ≠ 0 →
      get_completion_percentage a = min 100 (round2 (a.complete / a.quotaValue * 100))) ∧
    get_completion_percentage ⟨"steps", 7500, 10000⟩ = 75 := by
  refine ⟨fun a => ?_, fun a h => ?_, fun a h => ?_, ?_⟩
  · unfold get_completion_percentage completion_percentage_spec
    by_cases h : a.quotaValue = 0 <;> simp [h, min_comm]
  · simp [get_completion_percentage, h]
  · simp [get_completion_percentage, h, min_comm]
  · show get_completion_percentage ⟨"steps", 7500, 10000⟩ = 75
    norm_num [get_completion_percentage, round2, pyRoundInt]

/-- Witness for C7 at concrete inputs. -/
theorem claim_C7_witness :
    get_completion_percentage ⟨"x", 5, 0⟩ = 0 ∧
    get_completion_percentage ⟨"x", 5, 20⟩ =
      min 100 (round2 ((5 : ℚ) / 20 * 100)) := by
  constructor
  · exact claim_C7.2.1 ⟨"x", 5, 0⟩ rfl
  · exact claim_C7.2.2.1 ⟨"x", 5, 20⟩ (by norm_num)

/-- C10: `delete_chatbot_message` returns `False` and leaves the
conversation unchanged when the index is negative or not below the
length (in particular on an empty conversation), and for an in-range
index removes exactly the message at that position, preserving the
order of the remaining messages, and returns `True`. -/
theorem claim_C10 (conversation : List ChatMessage) (message_index : ℤ) :
    (message_index < 0 ∨ (conversation.length : ℤ) ≤ message_index →
      delete_chatbot_message conversation message_index = (false, conversation)) ∧
    (conversation = [] →
      delete_chatbot_message conversation message_index = (false, conversation)) ∧
    (0 ≤ message_index → message_index < (conversation.length : ℤ) →
      delete_chatbot_message conversation message_index =
        (true, conversation.take message_index.toNat ++
               conversation.drop (message_index.toNat + 1))) := by
  refine ⟨fun h => ?_, fun h => ?_, fun h0 hlen => ?_⟩
  · unfold delete_chatbot_message
    by_cases he : conversation.isEmpty <;> simp [he, h]
  · subst h; simp [delete_chatbot_message]
  · have hne : conversation.isEmpty = false := by
      cases conversation with
      | nil => simp at hlen; omega
      | cons a l => rfl
    have hnot : ¬(message_index < 0 ∨ (conversation.length : ℤ) ≤ message_index) := by
      push_neg; exact ⟨h0, hlen⟩
    simp only [delete_chatbot_message, hne, Bool.false_eq_true, if_false, hnot,
      if_false]
    rw [List.eraseIdx_eq_take_drop_succ]

/-- Witness for C10 at concrete inputs. -/
theorem claim_C10_witness :
    (delete_chatbot_message [⟨"user", "hi", "t0"⟩, ⟨"assistant", "hello", "t1"⟩] 5 =
      (false, [⟨"user", "hi", "t0"⟩, ⟨"assistant", "hello", "t1"⟩])) ∧
    (delete_chatbot_message [⟨"user", "hi", "t0"⟩, ⟨"assistant", "hello", "t1"⟩] 0 =
      (true, [⟨"assistant", "hello", "t1"⟩])) := by
  constructor
  · exact (claim_C10 [⟨"user", "hi", "t0"⟩, ⟨"assistant", "hello", "t1"⟩] 5).1
      (Or.inr (by norm_num))
  · exact (claim_C10 [⟨"user", "hi", "t0"⟩, ⟨"assistant", "hello", "t1"⟩] 0).2.2
      le_rfl (by norm_num)

/-- `getPillarActivities` after `setPillarActivities`. -/
theorem getPillar_setPillar (p : Priorities) (pl pl2 : Pillar) (l : List Activity) :
    getPillarActivities (setPillarActivities p pl l) pl2 =
      if pl2 = pl then l else getPillarActivities p pl2 := by
  cases pl <;> cases pl2 <;> simp [getPillarActivities, setPillarActivities]

/-- C9: adding an activity to a pillar whose list holds no activity of
that exact (case-sensitive) name succeeds and appends it; a second add
of any activity with the same name to the same pillar fails with the
conflict error and leaves the record unchanged. -/
theorem claim_C9 (p : Priorities) (pillar : Pillar) (activity : Activity)
    (h : (getPillarActivities p pillar).any
        (fun act => act.name == activity.name) = false) :
    (add_activity_to_pillar p pillar activity).2 = none ∧
    getPillarActivities (add_activity_to_pillar p pillar activity).1 pillar =
      getPillarActivities p pillar ++ [activity] ∧
    ∀ a2 : Activity, a2.name = activity.name →
      add_activity_to_pillar (add_activity_to_pillar p pillar activity).1 pillar a2 =
        ((add_activity_to_pillar p pillar activity).1, some (.conflict a2.name)) := by
  have hres : add_activity_to_pillar p pillar activity =
      (setPillarActivities p pillar
        (getPillarActivities p pillar ++ [activity]), none) := by
    unfold add_activity_to_pillar
    simp [h]
  refine ⟨by rw [hres], ?_, fun a2 ha2 => ?_⟩
  · rw [hres, getPillar_setPillar]; simp
  · rw [hres]
    unfold add_activity_to_pillar
    rw [getPillar_setPillar]
    simp [List.any_append, ha2]

/-- Witness for C9 at concrete inputs. -/
theorem claim_C9_witness :
    (add_activity_to_pillar ⟨[], [], [], []⟩ .health ⟨"run", 0, 5⟩).2 = none ∧
    getPillarActivities (add_activity_to_pillar ⟨[], [], [], []⟩ .health
        ⟨"run", 0, 5⟩).1 .health = [⟨"run", 0, 5⟩] ∧
    add_activity_to_pillar
        (add_activity_to_pillar ⟨[], [], [], []⟩ .health ⟨"run", 0, 5⟩).1 .health
        ⟨"run", 3, 7⟩ =
      ((add_activity_to_pillar ⟨[], [], [], []⟩ .health ⟨"run", 0, 5⟩).1,
        some (.conflict "run")) := by
  have h := claim_C9 ⟨[], [], [], []⟩ .health ⟨"run", 0, 5⟩ (by rfl)
  refine ⟨h.1, by simpa using h.2.1, h.2.2 ⟨"run", 3, 7⟩ rfl⟩

/-! ## Lemmas about the scan-and-rewrite pattern -/
/-- Unfolding `List.find?` with the name predicate on a cons cell. -/
theorem find?_name_cons (activity_name : String) (b : Activity) (l : List Activity) :
    (b :: l).find? (fun x => x.name == activity_name) =
      if b.name == activity_name then some b
      else l.find? (fun x => x.name == activity_name) := by
  cases hb : b.name == activity_name <;> simp [List.find?_cons, hb]

/-- A successful `List.find?` for a name splits the list around the
returned activity, with no earlier name-match. -/
theorem find?_name_split (activity_name : String) :
    ∀ (l : List Activity) (a : Activity),
      l.find? (fun x => x.name == activity_name) = some a →
      ∃ l1 l2, l = l1 ++ a :: l2 ∧ a.name = activity_name ∧
        ∀ x ∈ l1, x.name ≠ activity_name
  | [], a, h => by simp at h
  | b :: rest, a, h => by
    rw [find?_name_cons] at h
    by_cases hb : (b.name == activity_name) = true
    · rw [if_pos hb] at h
      injection h with h
      subst h
      exact ⟨[], rest, rfl, by simpa using hb, by simp⟩
    · rw [if_neg hb] at h
      obtain ⟨l1, l2, hsplit, hname, hfirst⟩ := find?_name_split activity_name rest a h
      refine ⟨b :: l1, l2, by rw [hsplit]; rfl, hname, ?_⟩
      intro x hx
      rcases List.mem_cons.mp hx with he | hm
      · subst he
        simpa using hb
      · exact hfirst x hm

/-- `updateComplete` rewrites the first name-match: its result still has
that activity first, with `f` applied to its `complete`. -/
theorem find?_updateComplete_self (activity_name : String) (f : ℚ → ℚ) :
    ∀ (l : List Activity) (a : Activity),
      l.find? (fun x => x.name == activity_name) = some a →
      (updateComplete activity_name f l).find? (fun x => x.name == activity_name) =
        some { a with complete := f a.complete }
  | [], a, h => by simp at h
  | b :: rest, a, h => by
    rw [find?_name_cons] at h
    by_cases hb : (b.name == activity_name) = true
    · rw [if_pos hb] at h
      injection h with h
      subst h
      unfold updateComplete
      rw [if_pos hb, find?_name_cons]
      exact if_pos hb
    · rw [if_neg hb] at h
      unfold updateComplete
      rw [if_neg hb, find?_name_cons, if_neg hb]
      exact find?_updateComplete_self activity_name f rest a h

/-- Rewriting the `complete` of the first activity of one name does not
move or change the first activity of any other name. -/
theorem find?_updateComplete_other (activity_name other : String) (f : ℚ → ℚ)
    (hne : other ≠ activity_name) :
    ∀ l : List Activity,
      (updateComplete activity_name f l).find? (fun x => x.name == other) =
        l.find? (fun x => x.name == other)
  | [] => rfl
  | b :: rest => by
    by_cases hb : (b.name == activity_name) = true
    · have hbn : b.name = activity_name := by simpa using hb
      have hbo : (b.name == other) = false := by
        simp [hbn]
        exact fun h => hne h.symm
      unfold updateComplete
      rw [if_pos hb, find?_name_cons, find?_name_cons]
      simp [hbo]
    · unfold updateComplete
      rw [if_neg hb, find?_name_cons, find?_name_cons]
      by_cases hbo : (b.name == other) = true
      · rw [if_pos hbo, if_pos hbo]
      · rw [if_neg hbo, if_neg hbo]
        exact find?_updateComplete_other activity_name other f hne rest

/-- `updateComplete` preserves the length of the column. -/
theorem length_updateComplete (activity_name : String) (f : ℚ → ℚ) :
    ∀ l : List Activity, (updateComplete activity_name f l).length = l.length
  | [] => rfl
  | b :: rest => by
    unfold updateComplete
    by_cases hb : (b.name == activity_name) = true
    · rw [if_pos hb]; rfl
    · rw [if_neg hb]
      simp [length_updateComplete activity_name f rest]

/-- Reading a column after writing one column. -/
theorem getField_setField (t : ActivityTracker) (fld g : TrackerField)
    (l : List Activity) :
    getField (setField t fld l) g = if g = fld then l else getField t g := by
  cases fld <;> cases g <;> simp [getField, setField]

/-- The column reported by a successful scan really contains the
returned activity as its first name-match. -/
theorem findInFields_field (t : ActivityTracker) (activity_name : String) :
    ∀ (fs : List TrackerField) (a : Activity) (fld : TrackerField),
      findInFields t activity_name fs = some (a, fld) →
      (getField t fld).find? (fun x => x.name == activity_name) = some a
  | [], a, fld, h => by simp [findInFields] at h
  | g :: fs, a, fld, h => by
    unfold findInFields at h
    cases hg : (getField t g).find? (fun x => x.name == activity_name) with
    | some b =>
      rw [hg] at h
      injection h with h
      injection h with h1 h2
      subst h1; subst h2
      exact hg
    | none =>
      rw [hg] at h
      exact findInFields_field t activity_name fs a fld h

/-- If every searched column has the same first name-match in two
trackers, the whole scan agrees. -/
theorem findInFields_congr (t t2 : ActivityTracker) (activity_name : String) :
    ∀ fs : List TrackerField,
      (∀ g ∈ fs, (getField t2 g).find? (fun x => x.name == activity_name) =
        (getField t g).find? (fun x => x.name == activity_name)) →
      findInFields t2 activity_name fs = findInFields t activity_name fs
  | [], _ => rfl
  | g :: fs, h => by
    unfold findInFields
    rw [h g (by simp)]
    cases hg : (getField t g).find? (fun x => x.name == activity_name) with
    | some b => rfl
    | none =>
      exact findInFields_congr t t2 activity_name fs
        (fun g2 hg2 => h g2 (by simp [hg2]))

/-- After a successful scan-and-rewrite for one name, a scan for the
same name over the same columns returns the rewritten activity in the
same column. -/
theorem findInFields_after_update_self (t : ActivityTracker)
    (activity_name : String) (f : ℚ → ℚ) :
    ∀ (fs : List TrackerField) (a : Activity) (fld : TrackerField),
      findInFields t activity_name fs = some (a, fld) →
      findInFields
        (setField t fld (updateComplete activity_name f (getField t fld)))
        activity_name fs = some ({ a with complete := f a.complete }, fld)
  | [], a, fld, h => by simp [findInFields] at h
  | g :: fs, a, fld, h => by
    have hfld : (getField t fld).find? (fun x => x.name == activity_name) = some a :=
      findInFields_field t activity_name (g :: fs) a fld h
    unfold findInFields at h ⊢
    rw [getField_setField]
    cases hg : (getField t g).find? (fun x => x.name == activity_name) with
    | some b =>
      rw [hg] at h
      injection h with h
      injection h with h1 h2
      subst h1; subst h2
      rw [if_pos rfl]
      rw [find?_updateComplete_self activity_name f _ _ hg]
    | none =>
      rw [hg] at h
      have hgfld : g ≠ fld := by
        intro he
        rw [he, hfld] at hg
        exact Option.noConfusion hg
      rw [if_neg hgfld, hg]
      exact findInFields_after_update_self t activity_name f fs a fld h

/-- A scan-and-rewrite for one name leaves the scan result for every
other name over any column list untouched. -/
theorem findInFields_after_update_other (t : ActivityTracker)
    (activity_name other : String) (f : ℚ → ℚ) (fld : TrackerField)
    (hne : other ≠ activity_name) (fs : List TrackerField) :
    findInFields
      (setField t fld (updateComplete activity_name f (getField t fld)))
      other fs = findInFields t other fs := by
  refine findInFields_congr t _ other fs (fun g _ => ?_)
  rw [getField_setField]
  by_cases hg : g = fld
  · rw [if_pos hg, hg]
    exact find?_updateComplete_other activity_name other f hne _
  · rw [if_neg hg]

/-- A scan fails exactly when no searched column contains the name. -/
theorem findInFields_eq_none_iff (t : ActivityTracker) (activity_name : String) :
    ∀ fs : List TrackerField,
      findInFields t activity_name fs = none ↔
        ∀ g ∈ fs, ∀ x ∈ getField t g, x.name ≠ activity_name
  | [] => by simp [findInFields]
  | g :: fs => by
    unfold findInFields
    cases hg : (getField t g).find? (fun x => x.name == activity_name) with
    | some b =>
      refine iff_of_false (by simp) ?_
      intro hall
      have hb := List.find?_some hg
      have hmem := List.mem_of_find?_eq_some hg
      exact hall g (by simp) b hmem (by simpa using hb)
    | none =>
      rw [findInFields_eq_none_iff t activity_name fs]
      rw [List.find?_eq_none] at hg
      constructor
      · intro hall
        intro g2 hg2 x hx
        rcases List.mem_cons.mp hg2 with he | hm
        · subst he
          exact fun hn => hg x hx (by simp [hn])
        · exact hall g2 hm x hx
      · intro hall g2 hg2 x hx
        exact hall g2 (by simp [hg2]) x hx

/-- A successful scan returns a name-match that is first in its column,
found in the first column of the searched order that has any match. -/
theorem findInFields_first_match (t : ActivityTracker) (activity_name : String) :
    ∀ (fs : List TrackerField) (a : Activity) (fld : TrackerField),
      findInFields t activity_name fs = some (a, fld) →
      ∃ pre post, fs = pre ++ fld :: post ∧
        (∀ g ∈ pre, ∀ x ∈ getField t g, x.name ≠ activity_name) ∧
        ∃ l1 l2, getField t fld = l1 ++ a :: l2 ∧ a.name = activity_name ∧
          ∀ x ∈ l1, x.name ≠ activity_name
  | [], a, fld, h => by simp [findInFields] at h
  | g :: fs, a, fld, h => by
    unfold findInFields at h
    cases hg : (getField t g).find? (fun x => x.name == activity_name) with
    | some b =>
      rw [hg] at h
      injection h with h
      injection h with h1 h2
      subst h1; subst h2
      refine ⟨[], fs, rfl, by simp, ?_⟩
      exact find?_name_split activity_name _ _ hg
    | none =>
      rw [hg] at h
      obtain ⟨pre, post, hfs, hpre, hin⟩ :=
        findInFields_first_match t activity_name fs a fld h
      rw [List.find?_eq_none] at hg
      refine ⟨g :: pre, post, by rw [hfs]; rfl, ?_, hin⟩
      intro g2 hg2 x hx
      rcases List.mem_cons.mp hg2 with he | hm
      · subst he
        exact fun hn => hg x hx (by simp [hn])
      · exact hpre g2 hm x hx

/-- C1: on a tracker containing the named activity with completion
value `c`, `increment_activity_complete` with signed increment `d`
succeeds and sets that activity's `complete` to `max 0 (c + d)`, which
is never negative. -/
theorem claim_C1 (t : ActivityTracker) (activity_name : String)
    (category : Option String) (d : ℚ) (a : Activity) (fld : TrackerField)
    (h : find_activity_in_tracker t activity_name category = some (a, fld)) :
    ∃ t2, increment_activity_complete t activity_name d category = .ok t2 ∧
      find_activity_in_tracker t2 activity_name category =
        some ({ a with complete := max 0 (a.complete + d) }, fld) ∧
      0 ≤ max 0 (a.complete + d) := by
  refine ⟨setField t fld
    (updateComplete activity_name (fun c => max 0 (c + d)) (getField t fld)),
    ?_, ?_, le_max_left 0 _⟩
  · unfold increment_activity_complete applyToActivity
    rw [h]
  · exact findInFields_after_update_self t activity_name
      (fun c => max 0 (c + d)) _ a fld h

/-- Witness for C1: an activity with `complete = 30` incremented by
`-100` ends at `complete = 0`. -/
theorem claim_C1_witness :
    ∃ t2, increment_activity_complete
        ⟨[⟨"run", 30, 50⟩], [], [], [], [], [], [], []⟩ "run" (-100) none = .ok t2 ∧
      find_activity_in_tracker t2 "run" none =
        some (⟨"run", 0, 50⟩, .healthActivity) := by
  obtain ⟨t2, h1, h2, _⟩ := claim_C1
    ⟨[⟨"run", 30, 50⟩], [], [], [], [], [], [], []⟩ "run" none (-100)
    ⟨"run", 30, 50⟩ .healthActivity rfl
  refine ⟨t2, h1, ?_⟩
  rw [h2]
  norm_num

/-- C3: without a category filter the eight columns are scanned in the
fixed order (four activity lists, then four coping lists, each in
health→work→growth→relationship order) and the first name-match wins;
the mutation operations fail with the not-found error exactly when no
scanned column contains the name; a category filter narrows the scan to
that category's two columns. -/
theorem claim_C3 (t : ActivityTracker) (activity_name : String)
    (category : Option String) :
    fieldsToSearch none =
      [TrackerField.healthActivity, .workActivity, .growthActivity,
       .relationshipActivity, .healthCoping, .productivityCoping,
       .mindfulnessCoping, .relationshipCoping] ∧
    (fieldsToSearch (some "health") = [.healthActivity, .healthCoping] ∧
     fieldsToSearch (some "work") = [.workActivity, .productivityCoping] ∧
     fieldsToSearch (some "growth") = [.growthActivity, .mindfulnessCoping] ∧
     fieldsToSearch (some "relationships") =
       [.relationshipActivity, .relationshipCoping] ∧
     fieldsToSearch (some "relationship") =
       [.relationshipActivity, .relationshipCoping]) ∧
    (find_activity_in_tracker t activity_name category = none ↔
      ∀ g ∈ fieldsToSearch category, ∀ x ∈ getField t g,
        x.name ≠ activity_name) ∧
    (∀ a fld, find_activity_in_tracker t activity_name category = some (a, fld) →
      ∃ pre post, fieldsToSearch category = pre ++ fld :: post ∧
        (∀ g ∈ pre, ∀ x ∈ getField t g, x.name ≠ activity_name) ∧
        ∃ l1 l2, getField t fld = l1 ++ a :: l2 ∧ a.name = activity_name ∧
          ∀ x ∈ l1, x.name ≠ activity_name) ∧
    (∀ d : ℚ, increment_activity_complete t activity_name d category =
        .error (.notFound activity_name) ↔
      find_activity_in_tracker t activity_name category = none) ∧
    (∀ v : ℚ, 0 ≤ v →
      (update_activity_complete_tracker t activity_name v category =
          .error (.notFound activity_name) ↔
        find_activity_in_tracker t activity_name category = none)) ∧
    (reset_activity_tracker t activity_name category =
        .error (.notFound activity_name) ↔
      find_activity_in_tracker t activity_name category = none) := by
  have hbase : ∀ f : ℚ → ℚ,
      applyToActivity t activity_name category f =
          .error (.notFound activity_name) ↔
        find_activity_in_tracker t activity_name category = none := by
    intro f
    unfold applyToActivity
    cases hf : find_activity_in_tracker t activity_name category with
    | none => simp
    | some p => cases p; simp
  refine ⟨rfl, ⟨rfl, rfl, rfl, rfl, rfl⟩, ?_, ?_, ?_, ?_, ?_⟩
  · exact findInFields_eq_none_iff t activity_name (fieldsToSearch category)
  · exact fun a fld h => findInFields_first_match t activity_name
      (fieldsToSearch category) a fld h
  · exact fun d => hbase _
  · intro v hv
    unfold update_activity_complete_tracker
    rw [if_neg (not_lt.mpr hv)]
    exact hbase _
  · unfold reset_activity_tracker update_activity_complete_tracker
    rw [if_neg (by norm_num)]
    exact hbase _

/-- Witness for C3 at a concrete tracker: the name sits in the work
coping list, a categoryless scan finds it, a health-filtered scan
reports not found. -/
theorem claim_C3_witness :
    (find_activity_in_tracker
        ⟨[], [], [], [], [], [⟨"breathe", 1, 2⟩], [], []⟩ "breathe" none =
      none ↔
      ∀ g ∈ fieldsToSearch none, ∀ x ∈ getField
        ⟨[], [], [], [], [], [⟨"breathe", 1, 2⟩], [], []⟩ g,
          x.name ≠ "breathe") ∧
    (increment_activity_complete
        ⟨[], [], [], [], [], [⟨"breathe", 1, 2⟩], [], []⟩ "breathe" 1
        (some "health") = .error (.notFound "breathe") ↔
      find_activity_in_tracker
        ⟨[], [], [], [], [], [⟨"breathe", 1, 2⟩], [], []⟩ "breathe"
        (some "health") = none) :=
  ⟨(claim_C3 ⟨[], [], [], [], [], [⟨"breathe", 1, 2⟩], [], []⟩ "breathe" none).2.2.1,
   (claim_C3 ⟨[], [], [], [], [], [⟨"breathe", 1, 2⟩], [], []⟩ "breathe"
     (some "health")).2.2.2.2.1 1⟩

/-- Appending one element to the walked window extends the qualifying
prefix exactly when the prefix was the whole window and the new element
qualifies. -/
theorem length_takeWhile_concat (q : Nat → Bool) :
    ∀ (xs : List Nat) (a : Nat),
      ((xs ++ [a]).takeWhile q).length =
        if (xs.takeWhile q).length = xs.length then
          (if q a then xs.length + 1 else xs.length)
        else (xs.takeWhile q).length
  | [], a => by cases ha : q a <;> simp [List.takeWhile_cons, ha]
  | x :: xs, a => by
    cases hx : q x
    · have hne : ¬(([] : List Nat).length = (x :: xs).length) := by simp
      simp [List.takeWhile_cons, hx]
    · have := length_takeWhile_concat q xs a
      by_cases hc : (xs.takeWhile q).length = xs.length
      · cases ha : q a <;>
          simp [List.takeWhile_cons, hx, this, hc, ha, Nat.add_comm]
      · have hc2 : ¬((xs.takeWhile q).length + 1 = xs.length + 1) := by omega
        simp [List.takeWhile_cons, hx, this, hc, hc2]

/-- Recurrence for the spec current streak. -/
theorem currentStreakSpec_succ (q : Nat → Bool) (n : Nat) :
    currentStreakSpec q (n + 1) =
      if currentStreakSpec q n = n then (if q n then n + 1 else n)
      else currentStreakSpec q n := by
  unfold currentStreakSpec
  rw [List.range_succ, length_takeWhile_concat q (List.range n) n,
    List.length_range]

/-- Recurrence for the spec longest streak. -/
theorem longestStreakSpec_succ (q : Nat → Bool) (n : Nat) :
    longestStreakSpec q (n + 1) = max (longestStreakSpec q n) (runLen q n) := by
  unfold longestStreakSpec
  rw [List.range_succ, List.foldl_append]
  rfl

/-- On a qualifying day the run counter becomes the run length ending
there. -/
theorem tempSpec_succ_of_pos (q : Nat → Bool) (n : Nat) (h : q n = true) :
    tempSpec q n + 1 = runLen q n := by
  cases n with
  | zero => simp [tempSpec, runLen, h]
  | succ m => simp [tempSpec, runLen, h]

/-- The loop step depends on the day only through qualification. -/
theorem streakStep_eq (days : Nat → Option Activity) (i : Nat) (s : StreakState) :
    streakStep (days i) i s =
      if qualifies days i then
        ⟨if i = s.current then s.current + 1 else s.current,
         max s.longest (s.temp + 1), s.temp + 1⟩
      else ⟨s.current, s.longest, 0⟩ := by
  unfold streakStep qualifies
  cases days i with
  | none => simp
  | some a => by_cases h : met_goal a <;> simp [h]

/-- The spec current streak never exceeds the window length. -/
theorem currentStreakSpec_le (q : Nat → Bool) (n : Nat) :
    currentStreakSpec q n ≤ n := by
  unfold currentStreakSpec
  calc ((List.range n).takeWhile q).length ≤ (List.range n).length :=
        (List.takeWhile_prefix q).length_le
    _ = n := List.length_range n

/-- Loop invariant: after walking `n` days the three loop variables are
the spec current streak, the spec longest streak and the spec run
counter of the `n`-day window. -/
theorem streakRun_eq (days : Nat → Option Activity) :
    ∀ n, streakRun days n =
      ⟨currentStreakSpec (qualifies days) n,
       longestStreakSpec (qualifies days) n,
       tempSpec (qualifies days) n⟩
  | 0 => by simp [streakRun, currentStreakSpec, longestStreakSpec, tempSpec]
  | n + 1 => by
    rw [streakRun, streakRun_eq days n, streakStep_eq]
    cases hq : qualifies days n with
    | true =>
      rw [if_pos rfl]
      refine StreakState.mk.injEq .. ▸ ⟨?_, ?_, ?_⟩
      · rw [currentStreakSpec_succ, hq]
        by_cases hc : currentStreakSpec (qualifies days) n = n
        · simp [hc]
        · rw [if_neg hc, if_neg (fun h => hc h.symm)]
      · rw [longestStreakSpec_succ, tempSpec_succ_of_pos _ _ hq]
      · show tempSpec (qualifies days) n + 1 = tempSpec (qualifies days) (n + 1)
        rw [tempSpec, tempSpec_succ_of_pos _ _ hq]
    | false =>
      rw [if_neg (by simp [hq])]
      refine StreakState.mk.injEq .. ▸ ⟨?_, ?_, ?_⟩
      · rw [currentStreakSpec_succ, hq]
        by_cases hc : currentStreakSpec (qualifies days) n = n <;> simp [hc]
      · rw [longestStreakSpec_succ]
        have : runLen (qualifies days) n = 0 := by
          cases n <;> simp [runLen, hq]
        simp [this]
      · show 0 = tempSpec (qualifies days) (n + 1)
        have : runLen (qualifies days) n = 0 := by
          cases n <;> simp [runLen, hq]
        simp [tempSpec, this]

/-- C2: the streak walk returns exactly the spec current streak (the
count of consecutive qualifying days ending at today, 0 when today does
not qualify) and the spec longest streak (the best qualifying run
anywhere in the window); a day qualifies iff data exists and
`(quota > 0 ∧ complete ≥ quota) ∨ (quota = 0 ∧ complete > 0)`, and a day
with no data never qualifies. -/
theorem claim_C2 (days : Nat → Option Activity) (days_to_check : Nat) :
    get_activity_streak days days_to_check =
      (currentStreakSpec (qualifies days) days_to_check,
       longestStreakSpec (qualifies days) days_to_check) ∧
    (∀ i, qualifies days i = true ↔ ∃ a, days i = some a ∧
      ((0 < a.quotaValue ∧ a.quotaValue ≤ a.complete) ∨
       (a.quotaValue = 0 ∧ 0 < a.complete))) ∧
    (∀ i, days i = none → qualifies days i = false) ∧
    (qualifies days 0 = false →
      (get_activity_streak days days_to_check).1 = 0) := by
  have hmain : get_activity_streak days days_to_check =
      (currentStreakSpec (qualifies days) days_to_check,
       longestStreakSpec (qualifies days) days_to_check) := by
    unfold get_activity_streak
    rw [streakRun_eq]
  refine ⟨hmain, fun i => ?_, fun i h => ?_, fun h0 => ?_⟩
  · unfold qualifies
    cases days i with
    | none => simp
    | some a =>
      unfold met_goal
      constructor
      · intro h
        refine ⟨a, rfl, ?_⟩
        rcases Bool.or_eq_true_iff.mp h with h1 | h2
        · exact Or.inl ⟨by simpa using (Bool.and_eq_true_iff.mp h1).1,
            by simpa using (Bool.and_eq_true_iff.mp h1).2⟩
        · exact Or.inr ⟨by simpa using (Bool.and_eq_true_iff.mp h2).1,
            by simpa using (Bool.and_eq_true_iff.mp h2).2⟩
      · rintro ⟨b, hb, hcond⟩
        injection hb with hb
        subst hb
        rcases hcond with ⟨h1, h2⟩ | ⟨h1, h2⟩
        · exact Bool.or_eq_true_iff.mpr (Or.inl (by simp [h1, h2]))
        · exact Bool.or_eq_true_iff.mpr (Or.inr (by simp [h1, h2]))
  · unfold qualifies
    rw [h]
  · rw [hmain]
    cases days_to_check with
    | zero => rfl
    | succ m =>
      show currentStreakSpec (qualifies days) (m + 1) = 0
      unfold currentStreakSpec
      rw [List.range_succ_eq_map]
      simp [List.takeWhile_cons, h0]

/-- Witness for C2: a three-day window where only today has data. -/
theorem claim_C2_witness :
    qualifies (fun i => if i = 0 then some ⟨"run", 5, 5⟩ else none) 1 = false ∧
    (qualifies (fun i => if i = 0 then some ⟨"run", 5, 5⟩ else none) 1 = true ↔
      ∃ a, (if 1 = 0 then some (⟨"run", 5, 5⟩ : Activity) else none) = some a ∧
        ((0 < a.quotaValue ∧ a.quotaValue ≤ a.complete) ∨
         (a.quotaValue = 0 ∧ 0 < a.complete))) := by
  constructor
  · exact (claim_C2 (fun i => if i = 0 then some ⟨"run", 5, 5⟩ else none) 3).2.2.1
      1 rfl
  · exact (claim_C2 (fun i => if i = 0 then some ⟨"run", 5, 5⟩ else none) 3).2.1 1

/-- `countP` over a cons whose head satisfies the predicate. -/
theorem countP_cons_true {p : Activity → Bool} {a : Activity} (l : List Activity)
    (h : p a = true) : List.countP p (a :: l) = List.countP p l + 1 := by
  simp [List.countP_cons, h]

/-- `countP` over a cons whose head fails the predicate. -/
theorem countP_cons_false {p : Activity → Bool} {a : Activity} (l : List Activity)
    (h : p a = false) : List.countP p (a :: l) = List.countP p l := by
  simp [List.countP_cons, h]

/-- The bucketing loop counts the three spec buckets and the length. -/
theorem bucketLoop_eq :
    ∀ (l : List Activity) (tot comp prog ns : Nat),
      bucketLoop l (tot, comp, prog, ns) =
        (tot + l.length, comp + l.countP completedP,
         prog + l.countP inProgressP, ns + l.countP notStartedP)
  | [], tot, comp, prog, ns => by simp [bucketLoop]
  | a :: rest, tot, comp, prog, ns => by
    unfold bucketLoop
    by_cases h0 : a.complete = 0
    · have hc : completedP a = false := by simp [completedP, h0]
      have hp : inProgressP a = false := by simp [inProgressP, h0]
      have hn : notStartedP a = true := by simp [notStartedP, h0]
      rw [if_pos h0, bucketLoop_eq rest, countP_cons_false rest hc,
        countP_cons_false rest hp, countP_cons_true rest hn, List.length_cons]
      simp [Nat.add_comm, Nat.add_left_comm, Nat.add_assoc]
    · by_cases hq : 0 < a.quotaValue ∧ a.quotaValue ≤ a.complete
      · have hc : completedP a = true := by
          simp [completedP, h0, hq.1, hq.2]
        have hp : inProgressP a = false := by
          simp [inProgressP, h0, hq.1, hq.2]
        have hn : notStartedP a = false := by simp [notStartedP, h0]
        rw [if_neg h0, if_pos hq, bucketLoop_eq rest, countP_cons_true rest hc,
          countP_cons_false rest hp, countP_cons_false rest hn, List.length_cons]
        simp [Nat.add_comm, Nat.add_left_comm, Nat.add_assoc]
      · have hc : completedP a = false := by
          unfold completedP
          rcases not_and_or.mp hq with h | h <;> simp [h0, h]
        have hp : inProgressP a = true := by
          unfold inProgressP
          rcases not_and_or.mp hq with h | h <;> simp [h0, h]
        have hn : notStartedP a = false := by simp [notStartedP, h0]
        rw [if_neg h0, if_neg hq, bucketLoop_eq rest, countP_cons_false rest hc,
          countP_cons_true rest hp, countP_cons_false rest hn, List.length_cons]
        simp [Nat.add_comm, Nat.add_left_comm, Nat.add_assoc]

/-- Every activity falls in exactly one spec bucket. -/
theorem bucket_partition (l : List Activity) :
    l.countP completedP + l.countP inProgressP + l.countP notStartedP =
      l.length := by
  induction l with
  | nil => simp
  | cons a rest ih =>
    rw [List.length_cons]
    by_cases h0 : a.complete = 0
    · have hc : completedP a = false := by simp [completedP, h0]
      have hp : inProgressP a = false := by simp [inProgressP, h0]
      have hn : notStartedP a = true := by simp [notStartedP, h0]
      rw [countP_cons_false rest hc, countP_cons_false rest hp,
        countP_cons_true rest hn]
      omega
    · by_cases hq : 0 < a.quotaValue ∧ a.quotaValue ≤ a.complete
      · have hc : completedP a = true := by simp [completedP, h0, hq.1, hq.2]
        have hp : inProgressP a = false := by simp [inProgressP, h0, hq.1, hq.2]
        have hn : notStartedP a = false := by simp [notStartedP, h0]
        rw [countP_cons_true rest hc, countP_cons_false rest hp,
          countP_cons_false rest hn]
        omega
      · have hc : completedP a = false := by
          unfold completedP
          rcases not_and_or.mp hq with h | h <;> simp [h0, h]
        have hp : inProgressP a = true := by
          unfold inProgressP
          rcases not_and_or.mp hq with h | h <;> simp [h0, h]
        have hn : notStartedP a = false := by simp [notStartedP, h0]
        rw [countP_cons_false rest hc, countP_cons_true rest hp,
          countP_cons_false rest hn]
        omega

/-- `round(0, 2) = 0`. -/
theorem round2_zero : round2 0 = 0 := by
  norm_num [round2, pyRoundInt]

/-- The two ways of writing the completion rate — guarding the division
before or after the rounding — agree. -/
theorem rate_eq (T C : Nat) :
    round2 (if 0 < T then (C : ℚ) / (T : ℚ) * 100 else 0) =
      if T = 0 then 0 else round2 ((C : ℚ) / (T : ℚ) * 100) := by
  by_cases hT : T = 0
  · rw [if_pos hT, if_neg (by omega), round2_zero]
  · rw [if_neg hT, if_pos (Nat.pos_of_ne_zero hT)]

/-- C8: the progress summary counts only the four pillar activity lists
(the coping lists never change it), buckets each counted activity into
exactly one of not-started (`complete = 0`), completed (`complete ≠ 0`,
positive quota met) and in-progress (everything else), and reports
`completion_rate = round(completed / total * 100, 2)` with 0 for an
empty total; on the claim's example tracker it yields
`{total 3, completed 1, in_progress 1, not_started 1,
completion_rate 33.33}`. -/
theorem claim_C8 :
    (∀ t : ActivityTracker,
      get_activity_progress_summary (some t) = progress_summary_spec t) ∧
    (∀ (t : ActivityTracker) (hc pc mc rc : List Activity),
      get_activity_progress_summary (some
        { t with health_coping := hc, productivity_coping := pc,
                 mindfulness_coping := mc, relationship_coping := rc }) =
        get_activity_progress_summary (some t)) ∧
    (∀ t : ActivityTracker,
      (get_activity_progress_summary (some t)).completed +
        (get_activity_progress_summary (some t)).in_progress +
        (get_activity_progress_summary (some t)).not_started =
        (get_activity_progress_summary (some t)).total) ∧
    get_activity_progress_summary
        (some ⟨[⟨"a", 0, 0⟩, ⟨"b", 5, 10⟩, ⟨"c", 10, 10⟩],
          [], [], [], [], [], [], []⟩) =
      ⟨3, 1, 1, 1, 3333 / 100⟩ := by
  have hall : ∀ t : ActivityTracker,
      get_activity_progress_summary (some t) = progress_summary_spec t := by
    intro t
    show mkSummary (bucketLoop t.relationship_activity
      (bucketLoop t.growth_activity
        (bucketLoop t.work_activity
          (bucketLoop t.health_activity (0, 0, 0, 0))))) =
      progress_summary_spec t
    rw [bucketLoop_eq, bucketLoop_eq, bucketLoop_eq, bucketLoop_eq]
    unfold mkSummary progress_summary_spec
    simp only [List.countP_append, List.length_append, Nat.zero_add]
    rw [rate_eq]
  refine ⟨hall, fun t hc pc mc rc => ?_, fun t => ?_, ?_⟩
  · rfl
  · rw [hall]
    unfold progress_summary_spec
    exact bucket_partition _
  · rw [hall]
    unfold progress_summary_spec
    norm_num [completedP, inProgressP, notStartedP, List.countP_cons, round2,
      pyRoundInt]

/-- Populating twice from the same priorities is the same as populating
once. -/
theorem populate_idem (p : Priorities) (t : ActivityTracker) :
    populate_activities_from_priorities p
      (populate_activities_from_priorities p t) =
      populate_activities_from_priorities p t := rfl

/-- What `initialize_daily_activities` can return. -/
theorem init_result (p : Priorities) (t? : Option ActivityTracker) :
    (hasActivities (get_or_create_tracker p t?) = true ∧
      initialize_daily_activities p t? = get_or_create_tracker p t?) ∨
    initialize_daily_activities p t? =
      populate_activities_from_priorities p (get_or_create_tracker p t?) := by
  unfold initialize_daily_activities
  by_cases h : hasActivities (get_or_create_tracker p t?) = true
  · exact Or.inl ⟨h, by rw [if_pos h]⟩
  · exact Or.inr (by rw [if_neg h])

/-- C4: for a user with a priorities record,
`initialize_daily_activities` is idempotent — a second call on the
tracker produced by a first call returns it unchanged — and on a
tracker that is already populated it is a no-op. -/
theorem claim_C4 (p : Priorities) (t? : Option ActivityTracker) :
    initialize_daily_activities p (some (initialize_daily_activities p t?)) =
      initialize_daily_activities p t? ∧
    (∀ t : ActivityTracker, hasActivities t = true →
      initialize_daily_activities p (some t) = t) := by
  have hnoop : ∀ t : ActivityTracker, hasActivities t = true →
      initialize_daily_activities p (some t) = t := by
    intro t h
    unfold initialize_daily_activities get_or_create_tracker
    rw [if_pos h]
  refine ⟨?_, hnoop⟩
  by_cases h : hasActivities (initialize_daily_activities p t?) = true
  · exact hnoop _ h
  · show (if hasActivities (get_or_create_tracker p
        (some (initialize_daily_activities p t?))) = true
      then get_or_create_tracker p (some (initialize_daily_activities p t?))
      else populate_activities_from_priorities p
        (get_or_create_tracker p (some (initialize_daily_activities p t?)))) =
      initialize_daily_activities p t?
    show (if hasActivities (initialize_daily_activities p t?) = true
      then initialize_daily_activities p t?
      else populate_activities_from_priorities p
        (initialize_daily_activities p t?)) = initialize_daily_activities p t?
    rw [if_neg h]
    rcases init_result p t? with ⟨hpop, heq⟩ | heq
    · rw [heq] at h
      exact absurd hpop h
    · rw [heq, populate_idem]

/-- Witness for C4: a populated tracker is returned unchanged. -/
theorem claim_C4_witness :
    initialize_daily_activities ⟨[], [], [], []⟩
        (some ⟨[⟨"run", 2, 5⟩], [], [], [], [], [], [], []⟩) =
      ⟨[⟨"run", 2, 5⟩], [], [], [], [], [], [], []⟩ :=
  (claim_C4 ⟨[], [], [], []⟩
    (some ⟨[⟨"run", 2, 5⟩], [], [], [], [], [], [], []⟩)).2
    ⟨[⟨"run", 2, 5⟩], [], [], [], [], [], [], []⟩ rfl

/-- A commit at date `D` changes no other date and no priorities. -/
theorem setTracker_frame (s : AppState) (D : ℤ) (t : ActivityTracker) :
    (setTracker s D t).priorities = s.priorities ∧
    ∀ d : ℤ, d ≠ D → (setTracker s D t).trackers d = s.trackers d := by
  refine ⟨rfl, fun d hd => ?_⟩
  simp [setTracker, hd]

/-- The fetch-or-initialize preamble writes at most the row of date `D`. -/
theorem fetchOrInit_frame (s : AppState) (D : ℤ) :
    (fetchOrInit s D).2.priorities = s.priorities ∧
    ∀ d : ℤ, d ≠ D → (fetchOrInit s D).2.trackers d = s.trackers d := by
  unfold fetchOrInit svcInitialize
  cases hf : s.trackers D with
  | none =>
    dsimp only
    exact setTracker_frame s D _
  | some t =>
    dsimp only
    by_cases ht : hasActivities t = true
    · rw [if_pos ht]
      exact ⟨rfl, fun d hd => rfl⟩
    · rw [if_neg ht]
      exact setTracker_frame s D _

/-- C5: updating an activity's `complete` in the tracker of date `D`
never changes the priorities catalog and never changes the tracker of
any other date, whatever the outcome of the operation. -/
theorem claim_C5 (s : AppState) (D : ℤ) (activity_name : String)
    (complete_value : ℚ) (category : Option String) :
    (update_activity_complete s D activity_name complete_value category).1.priorities =
      s.priorities ∧
    ∀ d : ℤ, d ≠ D →
      (update_activity_complete s D activity_name complete_value category).1.trackers d =
        s.trackers d := by
  unfold update_activity_complete
  by_cases hv : complete_value < 0
  · rw [if_pos hv]
    exact ⟨rfl, fun d hd => rfl⟩
  · rw [if_neg hv]
    cases hfind : find_activity_in_tracker (fetchOrInit s D).1 activity_name category with
    | none => exact fetchOrInit_frame s D
    | some p =>
      obtain ⟨a, fld⟩ := p
      refine ⟨?_, fun d hd => ?_⟩
      · rw [(setTracker_frame (fetchOrInit s D).2 D _).1]
        exact (fetchOrInit_frame s D).1
      · rw [(setTracker_frame (fetchOrInit s D).2 D _).2 d hd]
        exact (fetchOrInit_frame s D).2 d hd

/-- Witness for C5 at a concrete store and dates. -/
theorem claim_C5_witness :
    (update_activity_complete
        ⟨⟨[], [], [], []⟩,
         fun d => if d = 0 then
           some ⟨[⟨"run", 1, 5⟩], [], [], [], [], [], [], []⟩ else none⟩
        0 "run" 4 none).1.trackers 7 =
      (⟨⟨[], [], [], []⟩,
         fun d => if d = 0 then
           some ⟨[⟨"run", 1, 5⟩], [], [], [], [], [], [], []⟩ else none⟩ :
        AppState).trackers 7 :=
  (claim_C5 ⟨⟨[], [], [], []⟩,
    fun d => if d = 0 then
      some ⟨[⟨"run", 1, 5⟩], [], [], [], [], [], [], []⟩ else none⟩
    0 "run" 4 none).2 7 (by norm_num)

/-- Each loop iteration counts its item exactly once. -/
theorem bulkStep_counts (D : ℤ) (acc : BulkCounts × AppState) (u : UpdateItem) :
    (bulkStep D acc u).1.success_count + (bulkStep D acc u).1.error_count =
      acc.1.success_count + acc.1.error_count + 1 := by
  unfold bulkStep
  cases hn : u.name with
  | none => rfl
  | some n =>
    cases hv : u.complete with
    | none => rfl
    | some v =>
      dsimp only
      by_cases he : n = ""
      · rw [if_pos he]
        rfl
      · rw [if_neg he]
        cases hu : update_activity_complete acc.2 D n v u.category with
        | mk s2 e =>
          cases e with
          | none => dsimp only; omega
          | some err => dsimp only; omega

/-- The counters after folding any item list. -/
theorem bulk_counts_eq (D : ℤ) :
    ∀ (updates : List UpdateItem) (acc : BulkCounts × AppState),
      (updates.foldl (bulkStep D) acc).1.success_count +
        (updates.foldl (bulkStep D) acc).1.error_count =
        acc.1.success_count + acc.1.error_count + updates.length
  | [], acc => by simp
  | u :: us, acc => by
    rw [List.foldl_cons, bulk_counts_eq D us (bulkStep D acc u),
      bulkStep_counts D acc u, List.length_cons]
    omega

/-- `updateComplete` never empties or fills a column. -/
theorem isEmpty_updateComplete (activity_name : String) (f : ℚ → ℚ) :
    ∀ l : List Activity, (updateComplete activity_name f l).isEmpty = l.isEmpty
  | [] => rfl
  | b :: rest => by
    unfold updateComplete
    by_cases hb : (b.name == activity_name) = true
    · rw [if_pos hb]
      rfl
    · rw [if_neg hb]
      rfl

/-- The scan-and-rewrite mutation keeps the tracker populated. -/
theorem hasActivities_after_update (t : ActivityTracker) (activity_name : String)
    (f : ℚ → ℚ) (fld : TrackerField) :
    hasActivities (setField t fld (updateComplete activity_name f (getField t fld))) =
      hasActivities t := by
  cases fld <;>
    simp [hasActivities, setField, getField, isEmpty_updateComplete]

/-- On a populated tracker the fetch preamble is a pure read. -/
theorem fetchOrInit_populated (s : AppState) (D : ℤ) (t : ActivityTracker)
    (hf : s.trackers D = some t) (ht : hasActivities t = true) :
    fetchOrInit s D = (t, s) := by
  unfold fetchOrInit
  rw [hf]
  dsimp only
  rw [if_pos ht]

/-- A single update on a populated tracker that finds its activity
commits exactly the rewritten tracker at date `D`. -/
theorem update_success (s : AppState) (D : ℤ) (t : ActivityTracker)
    (activity_name : String) (v : ℚ) (category : Option String)
    (a : Activity) (fld : TrackerField)
    (hf : s.trackers D = some t) (ht : hasActivities t = true)
    (hfind : find_activity_in_tracker t activity_name category = some (a, fld))
    (hv : 0 ≤ v) :
    update_activity_complete s D activity_name v category =
      (setTracker s D
        (setField t fld (updateComplete activity_name (fun _ => v)
          (getField t fld))), none) := by
  unfold update_activity_complete
  rw [if_neg (not_lt.mpr hv), fetchOrInit_populated s D t hf ht]
  dsimp only
  rw [hfind]

/-- A single update on a populated tracker that misses its activity
raises not-found and leaves the store untouched. -/
theorem update_miss (s : AppState) (D : ℤ) (t : ActivityTracker)
    (activity_name : String) (v : ℚ) (category : Option String)
    (hf : s.trackers D = some t) (ht : hasActivities t = true)
    (hfind : find_activity_in_tracker t activity_name category = none)
    (hv : 0 ≤ v) :
    update_activity_complete s D activity_name v category =
      (s, some (.notFound activity_name)) := by
  unfold update_activity_complete
  rw [if_neg (not_lt.mpr hv), fetchOrInit_populated s D t hf ht]
  dsimp only
  rw [hfind]

/-- Reading back the row just committed. -/
theorem setTracker_get (s : AppState) (D : ℤ) (t : ActivityTracker) :
    (setTracker s D t).trackers D = some t := by
  simp [setTracker]

/-- C6: `bulk_update_activities` applies its items sequentially and
independently — the fold decomposes over append, each item is counted
exactly once in `success_count + error_count = length`, and in the
claim's scenario (three updates of a populated tracker, the middle one
naming an activity absent from the tracker) the counters are
`success_count = 2, error_count = 1` while both valid items' new
`complete` values are persisted in the final store. -/
theorem claim_C6 :
    (∀ (s : AppState) (D : ℤ) (updates : List UpdateItem),
      (bulk_update_activities s D updates).1.success_count +
        (bulk_update_activities s D updates).1.error_count = updates.length) ∧
    (∀ (s : AppState) (D : ℤ) (us vs : List UpdateItem),
      bulk_update_activities s D (us ++ vs) =
        vs.foldl (bulkStep D) (bulk_update_activities s D us)) ∧
    (∀ (s : AppState) (D : ℤ) (t : ActivityTracker) (n1 n2 nb : String)
      (v1 v2 vb : ℚ) (a1 : Activity) (fld1 : TrackerField)
      (a2 : Activity) (fld2 : TrackerField),
      s.trackers D = some t → hasActivities t = true →
      find_activity_in_tracker t n1 none = some (a1, fld1) →
      find_activity_in_tracker t n2 none = some (a2, fld2) →
      find_activity_in_tracker t nb none = none →
      n1 ≠ "" → n2 ≠ "" → nb ≠ "" → n1 ≠ n2 →
      0 ≤ v1 → 0 ≤ v2 → 0 ≤ vb →
      (bulk_update_activities s D
          [⟨some n1, some v1, none⟩, ⟨some nb, some vb, none⟩,
           ⟨some n2, some v2, none⟩]).1 = ⟨2, 1⟩ ∧
      ∃ t2, (bulk_update_activities s D
          [⟨some n1, some v1, none⟩, ⟨some nb, some vb, none⟩,
           ⟨some n2, some v2, none⟩]).2.trackers D = some t2 ∧
        find_activity_in_tracker t2 n1 none =
          some ({ a1 with complete := v1 }, fld1) ∧
        find_activity_in_tracker t2 n2 none =
          some ({ a2 with complete := v2 }, fld2)) := by
  refine ⟨?_, ?_, ?_⟩
  · intro s D updates
    have h := bulk_counts_eq D updates (⟨0, 0⟩, s)
    simpa [bulk_update_activities] using h
  · intro s D us vs
    unfold bulk_update_activities
    rw [List.foldl_append]
  · intro s D t n1 n2 nb v1 v2 vb a1 fld1 a2 fld2
      hf ht hfind1 hfind2 hfindb hn1 hn2 hnb hne hv1 hv2 hvb
    -- names are pairwise distinct where it matters
    have hbn1 : nb ≠ n1 := by
      intro he
      rw [he, hfind1] at hfindb
      exact Option.noConfusion hfindb
    have hn2n1 : n2 ≠ n1 := fun he => hne he.symm
    have hbn2 : nb ≠ n2 := by
      intro he
      rw [he, hfind2] at hfindb
      exact Option.noConfusion hfindb
    -- step 1: update n1 succeeds
    set t1 := setField t fld1 (updateComplete n1 (fun _ => v1) (getField t fld1))
      with ht1def
    have hstep1 : update_activity_complete s D n1 v1 none =
        (setTracker s D t1, none) :=
      update_success s D t n1 v1 none a1 fld1 hf ht hfind1 hv1
    have hs1f : (setTracker s D t1).trackers D = some t1 := setTracker_get s D t1
    have hs1h : hasActivities t1 = true := by
      rw [ht1def, hasActivities_after_update]
      exact ht
    have ht1find1 : find_activity_in_tracker t1 n1 none =
        some ({ a1 with complete := v1 }, fld1) :=
      findInFields_after_update_self t n1 (fun _ => v1) _ a1 fld1 hfind1
    have ht1find2 : find_activity_in_tracker t1 n2 none = some (a2, fld2) := by
      rw [ht1def]
      show findInFields _ n2 (fieldsToSearch none) = _
      rw [findInFields_after_update_other t n1 n2 (fun _ => v1) fld1 hn2n1]
      exact hfind2
    have ht1findb : find_activity_in_tracker t1 nb none = none := by
      rw [ht1def]
      show findInFields _ nb (fieldsToSearch none) = _
      rw [findInFields_after_update_other t n1 nb (fun _ => v1) fld1 hbn1]
      exact hfindb
    -- step 2: update nb misses, store unchanged
    have hstep2 : update_activity_complete (setTracker s D t1) D nb vb none =
        (setTracker s D t1, some (.notFound nb)) :=
      update_miss (setTracker s D t1) D t1 nb vb none hs1f hs1h ht1findb hvb
    -- step 3: update n2 succeeds
    set t2 := setField t1 fld2 (updateComplete n2 (fun _ => v2) (getField t1 fld2))
      with ht2def
    have hstep3 : update_activity_complete (setTracker s D t1) D n2 v2 none =
        (setTracker (setTracker s D t1) D t2, none) :=
      update_success (setTracker s D t1) D t1 n2 v2 none a2 fld2 hs1f hs1h
        ht1find2 hv2
    have ht2find2 : find_activity_in_tracker t2 n2 none =
        some ({ a2 with complete := v2 }, fld2) :=
      findInFields_after_update_self t1 n2 (fun _ => v2) _ a2 fld2 ht1find2
    have ht2find1 : find_activity_in_tracker t2 n1 none =
        some ({ a1 with complete := v1 }, fld1) := by
      rw [ht2def]
      show findInFields _ n1 (fieldsToSearch none) = _
      rw [findInFields_after_update_other t1 n2 n1 (fun _ => v2) fld2 hne]
      exact ht1find1
    -- assemble the fold
    have hrun : bulk_update_activities s D
        [⟨some n1, some v1, none⟩, ⟨some nb, some vb, none⟩,
         ⟨some n2, some v2, none⟩] =
        (⟨2, 1⟩, setTracker (setTracker s D t1) D t2) := by
      unfold bulk_update_activities
      rw [List.foldl_cons, List.foldl_cons, List.foldl_cons, List.foldl_nil]
      have h1 : bulkStep D (⟨0, 0⟩, s) ⟨some n1, some v1, none⟩ =
          (⟨1, 0⟩, setTracker s D t1) := by
        unfold bulkStep
        dsimp only
        rw [if_neg hn1, hstep1]
      rw [h1]
      have h2 : bulkStep D (⟨1, 0⟩, setTracker s D t1) ⟨some nb, some vb, none⟩ =
          (⟨1, 1⟩, setTracker s D t1) := by
        unfold bulkStep
        dsimp only
        rw [if_neg hnb, hstep2]
      rw [h2]
      unfold bulkStep
      dsimp only
      rw [if_neg hn2, hstep3]
    rw [hrun]
    exact ⟨rfl, t2, setTracker_get _ D t2, ht2find1, ht2find2⟩

/-- Witness for C6: a store whose tracker holds activities A and B, bulk
updated with an item for the absent name X in the middle. -/
theorem claim_C6_witness :
    (bulk_update_activities
        ⟨⟨[], [], [], []⟩,
         fun d => if d = 0 then
           some ⟨[⟨"A", 0, 5⟩], [⟨"B", 1, 3⟩], [], [], [], [], [], []⟩
         else none⟩
        0
        [⟨some "A", some 2, none⟩, ⟨some "X", some 1, none⟩,
         ⟨some "B", some 3, none⟩]).1 = ⟨2, 1⟩ ∧
    ∃ t2, (bulk_update_activities
        ⟨⟨[], [], [], []⟩,
         fun d => if d = 0 then
           some ⟨[⟨"A", 0, 5⟩], [⟨"B", 1, 3⟩], [], [], [], [], [], []⟩
         else none⟩
        0
        [⟨some "A", some 2, none⟩, ⟨some "X", some 1, none⟩,
         ⟨some "B", some 3, none⟩]).2.trackers 0 = some t2 ∧
      find_activity_in_tracker t2 "A" none =
        some (⟨"A", 2, 5⟩, .healthActivity) ∧
      find_activity_in_tracker t2 "B" none =
        some (⟨"B", 3, 3⟩, .workActivity) := by
  have h := claim_C6.2.2
    ⟨⟨[], [], [], []⟩,
     fun d => if d = 0 then
       some ⟨[⟨"A", 0, 5⟩], [⟨"B", 1, 3⟩], [], [], [], [], [], []⟩
     else none⟩
    0 ⟨[⟨"A", 0, 5⟩], [⟨"B", 1, 3⟩], [], [], [], [], [], []⟩
    "A" "B" "X" 2 3 1 ⟨"A", 0, 5⟩ .healthActivity ⟨"B", 1, 3⟩ .workActivity
    rfl rfl rfl rfl rfl
    (by decide) (by decide) (by decide) (by decide)
    (by norm_num) (by norm_num) (by norm_num)
  exact h

end Harmony
